import Mathlib

/-!
Verification of the logistic-regression training toolkit
(`scripts/implementations.py`) against its specification.

Shallow embedding conventions:
* numpy 1-D arrays become `List α`, 2-D arrays become `List (List α)`
  (row-major), over an arbitrary `LinearOrderedField α`.
* `np.exp` / `np.log` are passed as explicit function parameters so the
  definitions stay computable; claims that depend on the analytic
  behaviour of the exponential instantiate them with `Real.exp` /
  `Real.log`.
* `np.random.permutation` is modelled by an explicit permutation
  argument: `batch_iter` receives the permutation the generator drew for
  this call, and the training loops receive a stream `perms : ℕ → List ℕ`
  supplying the permutation drawn at each epoch.
* Python's slice `a[s:e]` (with `0 ≤ s ≤ e`) becomes drop-then-take;
  numpy fancy indexing `a[idx]` becomes `applyPerm`.
* The local variable `loss` of the training loops is unassigned before
  the first epoch; this is modelled by an `Option α` that starts as
  `none`, so the functions return `Option (List α × α)` and the
  `UnboundLocalError` raised when `max_iters = 0` is the `none` result.
* Aliasing claims are settled on a store-passing variant (`Store`,
  `clippingSt`, …) in which numpy arrays are heap objects addressed by
  natural-number references; see below.
-/

set_option linter.unusedSectionVars false

namespace Impl

variable {β : Type}

/-- Python slice `l[s:e]` for `0 ≤ s ≤ e`. -/
def pySlice (s e : ℕ) (l : List β) : List β := (l.drop s).take (e - s)

/-- numpy fancy indexing `l[idx]`: pick the rows listed in `idx`
(out-of-range indices cannot occur for the permutations numpy draws). -/
def applyPerm (idx : List ℕ) (l : List β) : List β :=
  idx.filterMap (fun i => l[i]?)

variable {α : Type} [LinearOrderedField α]

/-- Dot product `a @ b` of two equally long 1-D arrays. -/
def dot (a b : List α) : α := (List.zipWith (fun x y => x * y) a b).sum

/-- Matrix-vector product `m @ v` (rows of `m` dotted with `v`). -/
def matVec (m : List (List α)) (v : List α) : List α :=
  m.map (fun row => dot row v)

/-- numpy transpose `m.T` of a rectangular row-major matrix. -/
def npT (m : List (List α)) : List (List α) :=
  match m with
  | [] => []
  | r :: _ => (List.range r.length).map (fun j => m.map (fun row => row.getD j 0))

/-- Elementwise difference `a - b` of two equally long 1-D arrays. -/
def vecSub (a b : List α) : List α := List.zipWith (fun x y => x - y) a b

/-- Elementwise sum `a + b` of two equally long 1-D arrays. -/
def vecAdd (a b : List α) : List α := List.zipWith (fun x y => x + y) a b

/-- `batch_iter(y, tx, batch_size, num_batches, shuffle)`.  The generator
is modelled as the finite list of the pairs it yields, in order; `perm`
is the permutation `np.random.permutation(np.arange(data_size))` drew
for this call (ignored when `shuffle` is false). -/
def batch_iter (perm : List ℕ) (y : List α) (tx : List (List α))
    (batch_size : ℕ) (num_batches : ℕ) (shuffle : Bool) :
    List (List α × List (List α)) :=
  let data_size := y.length
  let shuffled_y := if shuffle then applyPerm perm y else y
  let shuffled_tx := if shuffle then applyPerm perm tx else tx
  (List.range num_batches).filterMap (fun batch_num =>
    let start_index := batch_num * batch_size
    let end_index := min ((batch_num + 1) * batch_size) data_size
    if start_index ≠ end_index then
      some (pySlice start_index end_index shuffled_y,
            pySlice start_index end_index shuffled_tx)
    else none)

/-- Scalar body of `sigmoid`: `1.0 / (1 + np.exp(-z))`. -/
def sigmoidFn (exp : α → α) (z : α) : α := 1 / (1 + exp (-z))

/-- `sigmoid(z)` applied elementwise to a 1-D array. -/
def sigmoid (exp : α → α) (z : List α) : List α := z.map (sigmoidFn exp)

/-- `clipping(h)`: first every element `> 15` is set to `15`, then every
element `< -15` is set to `-15` (two successive masked assignments). -/
def clipping (h : List α) : List α :=
  let abs_threshold : α := 15
  (h.map (fun x => if x > abs_threshold then abs_threshold else x)).map
    (fun x => if x < -abs_threshold then -abs_threshold else x)

/-- `cross_entropy_loss(y, tx, w)`:
`h = sigmoid(clipping(tx @ w))`, result
`np.squeeze((-y.T @ np.log(h)) + (-(1 - y).T @ np.log(1 - h)))`
(`np.squeeze` of a 0-d result is the scalar itself). -/
def cross_entropy_loss (exp log : α → α) (y : List α) (tx : List (List α))
    (w : List α) : α :=
  let h := sigmoid exp (clipping (matVec tx w))
  (-(dot y (h.map log))) +
    (-(dot (y.map (fun t => 1 - t)) ((h.map (fun t => 1 - t)).map log)))

/-- `cross_entropy_gradient(y, tx, w)`:
`h = sigmoid(tx @ w)` (no clipping), result `tx.T @ (h - y)`. -/
def cross_entropy_gradient (exp : α → α) (y : List α) (tx : List (List α))
    (w : List α) : List α :=
  let h := sigmoid exp (matVec tx w)
  matVec (npT tx) (vecSub h y)

/-- `regularized_cross_entropy_loss(y, tx, w, lambda_)`:
loss plus `lambda_ * np.squeeze(w.T @ w)`. -/
def regularized_cross_entropy_loss (exp log : α → α) (y : List α)
    (tx : List (List α)) (w : List α) (lambda_ : α) : α :=
  cross_entropy_loss exp log y tx w + lambda_ * dot w w

/-- `regularized_cross_entropy_gradient(y, tx, w, lambda_)`:
gradient plus `2 * lambda_ * w` (elementwise). -/
def regularized_cross_entropy_gradient (exp : α → α) (y : List α)
    (tx : List (List α)) (w : List α) (lambda_ : α) : List α :=
  vecAdd (cross_entropy_gradient exp y tx w)
    (w.map (fun t => 2 * lambda_ * t))

/-- One weight update `w = w - gamma * gr` of the plain training loop. -/
def sgdUpdate (exp : α → α) (gamma : α) (w : List α)
    (mb : List α × List (List α)) : List α :=
  vecSub w ((cross_entropy_gradient exp mb.1 mb.2 w).map (fun t => gamma * t))

/-- One weight update of the regularized training loop. -/
def regSgdUpdate (exp : α → α) (lambda_ gamma : α) (w : List α)
    (mb : List α × List (List α)) : List α :=
  vecSub w
    ((regularized_cross_entropy_gradient exp mb.1 mb.2 w lambda_).map
      (fun t => gamma * t))

/-- Body of one iteration of the outer `for n_iter in range(max_iters)`
loop of `logistic_regression`: the inner `for minibatch ... in
batch_iter(y, tx, batch_size)` loop (defaults `num_batches=1`,
`shuffle=True`, permutation `perms n_iter`) folding the update over the
yielded batches, then the assignment
`loss = cross_entropy_loss(y, tx, w)`. -/
def epochBody (exp log : α → α) (perms : ℕ → List ℕ) (y : List α)
    (tx : List (List α)) (gamma : α) (batch_size : ℕ)
    (acc : List α × Option α) (n_iter : ℕ) : List α × Option α :=
  let w := (batch_iter (perms n_iter) y tx batch_size 1 true).foldl
    (sgdUpdate exp gamma) acc.1
  (w, some (cross_entropy_loss exp log y tx w))

/-- Body of one iteration of the outer loop of
`reg_logistic_regression`. -/
def epochBodyReg (exp log : α → α) (perms : ℕ → List ℕ) (y : List α)
    (tx : List (List α)) (lambda_ gamma : α) (batch_size : ℕ)
    (acc : List α × Option α) (n_iter : ℕ) : List α × Option α :=
  let w := (batch_iter (perms n_iter) y tx batch_size 1 true).foldl
    (regSgdUpdate exp lambda_ gamma) acc.1
  (w, some (regularized_cross_entropy_loss exp log y tx w lambda_))

/-- `logistic_regression(y, tx, initial_w, max_iters, gamma, batch_size=1)`.
The state is the pair of the local variables `(w, loss)`, with `loss`
starting unassigned (`none`); `none` in the result models the
`UnboundLocalError` raised at `return (w, loss)` when `loss` was never
assigned. -/
def logistic_regression (exp log : α → α) (perms : ℕ → List ℕ)
    (y : List α) (tx : List (List α)) (initial_w : List α)
    (max_iters : ℕ) (gamma : α) (batch_size : ℕ := 1) :
    Option (List α × α) :=
  let res := (List.range max_iters).foldl
    (epochBody exp log perms y tx gamma batch_size) (initial_w, none)
  res.2.map (fun l => (res.1, l))

/-- `reg_logistic_regression(y, tx, lambda_, initial_w, max_iters, gamma,
batch_size=1)`, structured exactly like `logistic_regression` with the
regularized gradient and loss. -/
def reg_logistic_regression (exp log : α → α) (perms : ℕ → List ℕ)
    (y : List α) (tx : List (List α)) (lambda_ : α) (initial_w : List α)
    (max_iters : ℕ) (gamma : α) (batch_size : ℕ := 1) :
    Option (List α × α) :=
  let res := (List.range max_iters).foldl
    (epochBodyReg exp log perms y tx lambda_ gamma batch_size)
    (initial_w, none)
  res.2.map (fun l => (res.1, l))

/-- One epoch of the plain training loop: the single
`batch_iter(y, tx, batch_size)` call (defaults `num_batches=1`,
`shuffle=True`) followed by one update per yielded batch. -/
def epochStep (exp : α → α) (perm : List ℕ) (y : List α)
    (tx : List (List α)) (gamma : α) (bs : ℕ) (w : List α) : List α :=
  (batch_iter perm y tx bs 1 true).foldl (sgdUpdate exp gamma) w

/-- One epoch of the regularized training loop. -/
def epochStepReg (exp : α → α) (perm : List ℕ) (y : List α)
    (tx : List (List α)) (lambda_ gamma : α) (bs : ℕ) (w : List α) :
    List α :=
  (batch_iter perm y tx bs 1 true).foldl (regSgdUpdate exp lambda_ gamma) w

/-- Iterate an epoch transition `f` (taking the epoch index) `m` times. -/
def iterEpochs (f : ℕ → List α → List α) (w0 : List α) : ℕ → List α
  | 0 => w0
  | k + 1 => f k (iterEpochs f w0 k)

/-- Weight vector after `m` epochs of the plain training loop. -/
def runEpochs (exp : α → α) (perms : ℕ → List ℕ) (y : List α)
    (tx : List (List α)) (gamma : α) (bs : ℕ) (w0 : List α) (m : ℕ) :
    List α :=
  iterEpochs (fun n => epochStep exp (perms n) y tx gamma bs) w0 m

/-- Weight vector after `m` epochs of the regularized training loop. -/
def runEpochsReg (exp : α → α) (perms : ℕ → List ℕ) (y : List α)
    (tx : List (List α)) (lambda_ gamma : α) (bs : ℕ) (w0 : List α)
    (m : ℕ) : List α :=
  iterEpochs (fun n => epochStepReg exp (perms n) y tx lambda_ gamma bs) w0 m

/-!
## Store-passing model for the aliasing claims

numpy arrays are heap objects; Python variables hold references.  A
`Store` is the heap: a list of array objects, addressed by their index
(a reference).  `allocV` models a numpy operation producing a fresh
array; `writeV` models an in-place masked assignment.  The only
in-place write in the whole program is `clipping`, so intermediate
arrays that are provably never written (the shuffled copies and slices
in `batch_iter`, `h`, the logarithms, the gradient, and the freshly
allocated `w - gamma * gr`) are carried by value; every array the
caller already holds — and the argument of `clipping` — lives in the
store.
-/

/-- A heap object: a 1-D or a 2-D numpy array. -/
inductive Obj (α : Type) where
  | vec : List α → Obj α
  | mat : List (List α) → Obj α
deriving DecidableEq

/-- The heap of array objects; a reference is an index into `data`. -/
structure Store (α : Type) where
  data : List (Obj α)
deriving DecidableEq

/-- Dereference a 1-D array. -/
def readV (σ : Store α) (r : ℕ) : List α :=
  match σ.data[r]? with
  | some (Obj.vec v) => v
  | _ => []

/-- Dereference a 2-D array. -/
def readM (σ : Store α) (r : ℕ) : List (List α) :=
  match σ.data[r]? with
  | some (Obj.mat m) => m
  | _ => []

/-- Allocate a fresh 1-D array, returning the new heap and its reference. -/
def allocV (σ : Store α) (v : List α) : Store α × ℕ :=
  (⟨σ.data ++ [Obj.vec v]⟩, σ.data.length)

/-- Overwrite the 1-D array behind reference `r` in place. -/
def writeV (σ : Store α) (r : ℕ) (v : List α) : Store α :=
  ⟨σ.data.set r (Obj.vec v)⟩

/-- `clipping(h)` on the heap: both masked assignments `h[h > 15] = 15`
and `h[h < -15] = -15` write through the reference `r`, and the
function returns that same reference — no copy is made. -/
def clippingSt (σ : Store α) (r : ℕ) : Store α × ℕ :=
  (writeV σ r (clipping (readV σ r)), r)

/-- `cross_entropy_loss(y, tx, w)` on the heap: `tx @ w` allocates a
fresh array, `clipping` then mutates that fresh array in place; the
remaining operations only read. -/
def cross_entropy_loss_st (exp log : α → α) (σ : Store α) (ry rtx : ℕ)
    (w : List α) : Store α × α :=
  let y := readV σ ry
  let tx := readM σ rtx
  let p := allocV σ (matVec tx w)
  let q := clippingSt p.1 p.2
  let h := sigmoid exp (readV q.1 q.2)
  (q.1,
    (-(dot y (h.map log))) +
      (-(dot (y.map (fun t => 1 - t)) ((h.map (fun t => 1 - t)).map log))))

/-- `regularized_cross_entropy_loss(y, tx, w, lambda_)` on the heap. -/
def regularized_cross_entropy_loss_st (exp log : α → α) (σ : Store α)
    (ry rtx : ℕ) (w : List α) (lambda_ : α) : Store α × α :=
  let p := cross_entropy_loss_st exp log σ ry rtx w
  (p.1, p.2 + lambda_ * dot w w)

/-- Body of one epoch of `logistic_regression` on the heap: `y` and
`tx` are re-read from the current heap, the local `w` is rebound to the
value of a freshly computed array by each update, and the loss call
performs the single in-place write of the epoch. -/
def epochBodySt (exp log : α → α) (perms : ℕ → List ℕ) (ry rtx : ℕ)
    (gamma : α) (bs : ℕ) (acc : Store α × List α × Option α)
    (n_iter : ℕ) : Store α × List α × Option α :=
  let σc := acc.1
  let w := (batch_iter (perms n_iter) (readV σc ry) (readM σc rtx)
      bs 1 true).foldl (sgdUpdate exp gamma) acc.2.1
  let p := cross_entropy_loss_st exp log σc ry rtx w
  (p.1, w, some p.2)

/-- Body of one epoch of `reg_logistic_regression` on the heap. -/
def epochBodyRegSt (exp log : α → α) (perms : ℕ → List ℕ) (ry rtx : ℕ)
    (lambda_ gamma : α) (bs : ℕ) (acc : Store α × List α × Option α)
    (n_iter : ℕ) : Store α × List α × Option α :=
  let σc := acc.1
  let w := (batch_iter (perms n_iter) (readV σc ry) (readM σc rtx)
      bs 1 true).foldl (regSgdUpdate exp lambda_ gamma) acc.2.1
  let p := regularized_cross_entropy_loss_st exp log σc ry rtx w lambda_
  (p.1, w, some p.2)

/-- `logistic_regression` on the heap: `y`, `tx` and the initial `w`
are passed as references. -/
def logistic_regression_st (exp log : α → α) (perms : ℕ → List ℕ)
    (σ : Store α) (ry rtx rw0 : ℕ) (max_iters : ℕ) (gamma : α)
    (bs : ℕ) : Store α × Option (List α × α) :=
  let res := (List.range max_iters).foldl
    (epochBodySt exp log perms ry rtx gamma bs) (σ, readV σ rw0, none)
  (res.1, res.2.2.map (fun l => (res.2.1, l)))

/-- `reg_logistic_regression` on the heap. -/
def reg_logistic_regression_st (exp log : α → α) (perms : ℕ → List ℕ)
    (σ : Store α) (ry rtx : ℕ) (lambda_ : α) (rw0 : ℕ) (max_iters : ℕ)
    (gamma : α) (bs : ℕ) : Store α × Option (List α × α) :=
  let res := (List.range max_iters).foldl
    (epochBodyRegSt exp log perms ry rtx lambda_ gamma bs)
    (σ, readV σ rw0, none)
  (res.1, res.2.2.map (fun l => (res.2.1, l)))

/-- `σ'` extends `σ`: every array object the caller already held is
untouched (new objects may have been allocated past the old end). -/
def Preserves (σ σ' : Store α) : Prop :=
  σ.data.length ≤ σ'.data.length ∧
    ∀ r, r < σ.data.length → σ'.data[r]? = σ.data[r]?

/-!
## Auxiliary lemmas
-/

lemma length_matVec (m : List (List α)) (v : List α) :
    (matVec m v).length = m.length := by
  simp [matVec]

lemma length_npT_le (m : List (List α)) (w : List α)
    (h : ∀ r ∈ m, r.length = w.length) : (npT m).length ≤ w.length := by
  cases m with
  | nil => simp [npT]
  | cons r rs => simp [npT, h r (List.mem_cons_self r rs)]

lemma vecAdd_zeros (l l' : List α) (h : l.length ≤ l'.length) :
    vecAdd l (l'.map fun _ => (0 : α)) = l := by
  induction l generalizing l' with
  | nil => simp [vecAdd]
  | cons a as ih =>
    cases l' with
    | nil => simp at h
    | cons b bs =>
      simp only [List.map_cons, vecAdd, List.zipWith_cons_cons, add_zero]
      exact congrArg (a :: ·) (ih bs (Nat.succ_le_succ_iff.1 h))

/-!
## Claims
-/

/-- **C4.** For every input array `z` and every element position `i`,
the array returned by `clipping z` has the same shape as `z` and its
element at `i` equals `15` if `z[i] > 15`, equals `-15` if
`z[i] < -15`, and equals `z[i]` otherwise. -/
theorem C4_clipping_pointwise (z : List α) :
    (clipping z).length = z.length ∧
    ∀ i, i < z.length →
      (clipping z).getD i 0 =
        if 15 < z.getD i 0 then 15
        else if z.getD i 0 < -15 then -15
        else z.getD i 0 := by
  refine ⟨by simp [clipping], fun i hi => ?_⟩
  have hz : z[i]? = some z[i] := List.getElem?_eq_getElem hi
  simp only [clipping, List.getD_eq_getElem?_getD, List.getElem?_map, hz,
    Option.map_some', Option.getD_some]
  have h15 : (-15 : α) < 15 := by norm_num
  split_ifs with h1 h2 h3 <;> first | rfl | linarith

/-- Witness for C4 at the concrete array `[20, -20, 3]`. -/
theorem C4_clipping_pointwise_witness :
    (0 < ([(20 : ℚ), -20, 3]).length) ∧
    (clipping [(20 : ℚ), -20, 3]).getD 0 0 =
      (if 15 < ([(20 : ℚ), -20, 3]).getD 0 0 then 15
       else if ([(20 : ℚ), -20, 3]).getD 0 0 < -15 then -15
       else ([(20 : ℚ), -20, 3]).getD 0 0) :=
  ⟨by norm_num, (C4_clipping_pointwise [(20 : ℚ), -20, 3]).2 0 (by norm_num)⟩

/-- **C7.** Setting `lambda_ = 0` reduces the regularized loss and the
regularized gradient to their unregularized counterparts (for shapes
where `tx` has `len w` columns, as numpy would require). -/
theorem C7_lambda_zero_reduction (exp log : α → α) (y : List α)
    (tx : List (List α)) (w : List α)
    (hcols : ∀ r ∈ tx, r.length = w.length) :
    regularized_cross_entropy_loss exp log y tx w 0 =
      cross_entropy_loss exp log y tx w ∧
    regularized_cross_entropy_gradient exp y tx w 0 =
      cross_entropy_gradient exp y tx w := by
  constructor
  · simp [regularized_cross_entropy_loss]
  · unfold regularized_cross_entropy_gradient
    have hf : (fun t => 2 * (0 : α) * t) = fun _ => (0 : α) := by
      funext t; ring
    rw [hf]
    apply vecAdd_zeros
    have : (cross_entropy_gradient exp y tx w).length = (npT tx).length := by
      simp [cross_entropy_gradient, length_matVec]
    rw [this]
    exact length_npT_le tx w hcols

/-- Witness for C7 at `y = [0]`, `tx = [[1]]`, `w = [2]` over `ℚ`. -/
theorem C7_lambda_zero_reduction_witness :
    (∀ r ∈ [[(1 : ℚ)]], r.length = [(2 : ℚ)].length) ∧
    (regularized_cross_entropy_loss id id [(0 : ℚ)] [[(1 : ℚ)]] [(2 : ℚ)] 0 =
        cross_entropy_loss id id [(0 : ℚ)] [[(1 : ℚ)]] [(2 : ℚ)] ∧
      regularized_cross_entropy_gradient id [(0 : ℚ)] [[(1 : ℚ)]] [(2 : ℚ)] 0 =
        cross_entropy_gradient id [(0 : ℚ)] [[(1 : ℚ)]] [(2 : ℚ)]) :=
  ⟨by decide,
   C7_lambda_zero_reduction id id [(0 : ℚ)] [[(1 : ℚ)]] [(2 : ℚ)] (by decide)⟩

lemma length_applyPerm {β : Type} (idx : List ℕ) (l : List β)
    (h : ∀ i ∈ idx, i < l.length) :
    (applyPerm idx l).length = idx.length := by
  induction idx with
  | nil => rfl
  | cons a as ih =>
    have hlt : a < l.length := h a (List.mem_cons_self a as)
    have ha : l[a]? = some l[a] := List.getElem?_eq_getElem hlt
    have has := ih (fun i hi => h i (List.mem_cons_of_mem a hi))
    simp only [applyPerm, List.filterMap_cons, ha] at *
    simp [has]

/-- **C5.** With `shuffle = false` the sampler emits, for each batch
index `b < num_batches` in increasing order, the row slice
`[b*batch_size, min((b+1)*batch_size, n))` of `y` and `tx` in original
row order, skipping (not emitting) any batch whose start equals its
end; with `shuffle = true` the one permutation drawn for the call is
applied identically to `y` and `tx` before slicing. -/
theorem C5_batch_iter_slices (perm : List ℕ) (y : List α)
    (tx : List (List α)) (bs nb : ℕ)
    (hperm : perm.Perm (List.range y.length)) :
    batch_iter perm y tx bs nb false =
      (List.range nb).filterMap (fun b =>
        if b * bs ≠ min ((b + 1) * bs) y.length then
          some ((y.drop (b * bs)).take (min ((b + 1) * bs) y.length - b * bs),
                (tx.drop (b * bs)).take (min ((b + 1) * bs) y.length - b * bs))
        else none) ∧
    batch_iter perm y tx bs nb true =
      batch_iter [] (applyPerm perm y) (applyPerm perm tx) bs nb false := by
  have hlen : (applyPerm perm y).length = y.length := by
    rw [length_applyPerm perm y
      (fun i hi => List.mem_range.1 (hperm.mem_iff.1 hi))]
    rw [hperm.length_eq, List.length_range]
  constructor
  · simp [batch_iter, pySlice]
  · simp [batch_iter, hlen]

/-- Witness for C5 with `y = [1, 2, 3]`, `tx = [[1], [2], [3]]`,
`batch_size = 2`, `num_batches = 3` and the permutation `[2, 0, 1]`. -/
theorem C5_batch_iter_slices_witness :
    ([2, 0, 1] : List ℕ).Perm (List.range ([(1 : ℚ), 2, 3]).length) ∧
    (batch_iter [2, 0, 1] [(1 : ℚ), 2, 3] [[(1 : ℚ)], [2], [3]] 2 3 false =
      (List.range 3).filterMap (fun b =>
        if b * 2 ≠ min ((b + 1) * 2) ([(1 : ℚ), 2, 3]).length then
          some ((([(1 : ℚ), 2, 3]).drop (b * 2)).take
                  (min ((b + 1) * 2) ([(1 : ℚ), 2, 3]).length - b * 2),
                (([[(1 : ℚ)], [2], [3]]).drop (b * 2)).take
                  (min ((b + 1) * 2) ([(1 : ℚ), 2, 3]).length - b * 2))
        else none) ∧
      batch_iter [2, 0, 1] [(1 : ℚ), 2, 3] [[(1 : ℚ)], [2], [3]] 2 3 true =
        batch_iter [] (applyPerm [2, 0, 1] [(1 : ℚ), 2, 3])
          (applyPerm [2, 0, 1] [[(1 : ℚ)], [2], [3]]) 2 3 false) :=
  ⟨by decide,
   C5_batch_iter_slices [2, 0, 1] [(1 : ℚ), 2, 3] [[(1 : ℚ)], [2], [3]] 2 3
     (by decide)⟩

lemma foldl_epochBody_char (exp log : α → α) (perms : ℕ → List ℕ)
    (y : List α) (tx : List (List α)) (gamma : α) (bs : ℕ)
    (w0 : List α) :
    ∀ m, 1 ≤ m →
      (List.range m).foldl (epochBody exp log perms y tx gamma bs)
          (w0, (none : Option α)) =
        (runEpochs exp perms y tx gamma bs w0 m,
         some (cross_entropy_loss exp log y tx
           (runEpochs exp perms y tx gamma bs w0 m))) := by
  intro m
  induction m with
  | zero => exact fun h => absurd h (by norm_num)
  | succ k ih =>
    intro _
    rw [List.range_succ, List.foldl_append]
    rcases Nat.eq_zero_or_pos k with h0 | hk
    · subst h0
      simp [epochBody, runEpochs, iterEpochs, epochStep]
    · rw [ih hk]
      simp [epochBody, runEpochs, iterEpochs, epochStep]

lemma foldl_epochBodyReg_char (exp log : α → α) (perms : ℕ → List ℕ)
    (y : List α) (tx : List (List α)) (lambda_ gamma : α) (bs : ℕ)
    (w0 : List α) :
    ∀ m, 1 ≤ m →
      (List.range m).foldl (epochBodyReg exp log perms y tx lambda_ gamma bs)
          (w0, (none : Option α)) =
        (runEpochsReg exp perms y tx lambda_ gamma bs w0 m,
         some (regularized_cross_entropy_loss exp log y tx
           (runEpochsReg exp perms y tx lambda_ gamma bs w0 m) lambda_)) := by
  intro m
  induction m with
  | zero => exact fun h => absurd h (by norm_num)
  | succ k ih =>
    intro _
    rw [List.range_succ, List.foldl_append]
    rcases Nat.eq_zero_or_pos k with h0 | hk
    · subst h0
      simp [epochBodyReg, runEpochsReg, iterEpochs, epochStepReg]
    · rw [ih hk]
      simp [epochBodyReg, runEpochsReg, iterEpochs, epochStepReg]

/-- **C1.** For `max_iters ≥ 1` both training loops run exactly
`max_iters` epochs; each epoch makes one sampling call with the
configured `batch_size` and `num_batches = 1` (consuming that epoch's
permutation) and folds `w ← w − gamma * gradient` over the yielded
batches (`runEpochs` / `runEpochsReg` is exactly that iteration); the
functions return the final weight vector paired with the full-dataset
loss evaluated at the post-update weights of the last epoch. -/
theorem C1_training_loop (exp log : α → α) (perms : ℕ → List ℕ)
    (y : List α) (tx : List (List α)) (w0 : List α) (m : ℕ)
    (gamma lambda_ : α) (bs : ℕ) (hm : 1 ≤ m) :
    logistic_regression exp log perms y tx w0 m gamma bs =
      some (runEpochs exp perms y tx gamma bs w0 m,
        cross_entropy_loss exp log y tx
          (runEpochs exp perms y tx gamma bs w0 m)) ∧
    reg_logistic_regression exp log perms y tx lambda_ w0 m gamma bs =
      some (runEpochsReg exp perms y tx lambda_ gamma bs w0 m,
        regularized_cross_entropy_loss exp log y tx
          (runEpochsReg exp perms y tx lambda_ gamma bs w0 m) lambda_) := by
  constructor
  · simp only [logistic_regression]
    rw [foldl_epochBody_char exp log perms y tx gamma bs w0 m hm]
    rfl
  · simp only [reg_logistic_regression]
    rw [foldl_epochBodyReg_char exp log perms y tx lambda_ gamma bs w0 m hm]
    rfl

/-- Witness for C1 at a concrete one-epoch run over `ℚ`. -/
theorem C1_training_loop_witness :
    (1 ≤ 1) ∧
    (logistic_regression id id (fun _ => []) [(0 : ℚ)] [[(1 : ℚ)]] [(0 : ℚ)]
        1 1 1 =
      some (runEpochs id (fun _ => []) [(0 : ℚ)] [[(1 : ℚ)]] 1 1 [(0 : ℚ)] 1,
        cross_entropy_loss id id [(0 : ℚ)] [[(1 : ℚ)]]
          (runEpochs id (fun _ => []) [(0 : ℚ)] [[(1 : ℚ)]] 1 1 [(0 : ℚ)] 1)) ∧
      reg_logistic_regression id id (fun _ => []) [(0 : ℚ)] [[(1 : ℚ)]] 1
          [(0 : ℚ)] 1 1 1 =
        some (runEpochsReg id (fun _ => []) [(0 : ℚ)] [[(1 : ℚ)]] 1 1 1
            [(0 : ℚ)] 1,
          regularized_cross_entropy_loss id id [(0 : ℚ)] [[(1 : ℚ)]]
            (runEpochsReg id (fun _ => []) [(0 : ℚ)] [[(1 : ℚ)]] 1 1 1
              [(0 : ℚ)] 1) 1)) :=
  ⟨le_refl 1,
   C1_training_loop id id (fun _ => []) [(0 : ℚ)] [[(1 : ℚ)]] [(0 : ℚ)] 1 1 1 1
     (le_refl 1)⟩

/-- **C9.** With `max_iters = 0` neither training loop returns a
`(weights, loss)` pair — the `loss` local is never assigned, modelled
by the `none` result — while any `max_iters ≥ 1` run does return a
pair. -/
theorem C9_zero_iters_no_result (exp log : α → α) (perms : ℕ → List ℕ)
    (y : List α) (tx : List (List α)) (w0 : List α)
    (gamma lambda_ : α) (bs m : ℕ) (hm : 1 ≤ m) :
    logistic_regression exp log perms y tx w0 0 gamma bs = none ∧
    reg_logistic_regression exp log perms y tx lambda_ w0 0 gamma bs = none ∧
    (∃ p, logistic_regression exp log perms y tx w0 m gamma bs = some p) ∧
    (∃ p, reg_logistic_regression exp log perms y tx lambda_ w0 m gamma bs =
      some p) := by
  refine ⟨rfl, rfl,
    ⟨(runEpochs exp perms y tx gamma bs w0 m,
      cross_entropy_loss exp log y tx
        (runEpochs exp perms y tx gamma bs w0 m)), ?_⟩,
    ⟨(runEpochsReg exp perms y tx lambda_ gamma bs w0 m,
      regularized_cross_entropy_loss exp log y tx
        (runEpochsReg exp perms y tx lambda_ gamma bs w0 m) lambda_), ?_⟩⟩
  · simp only [logistic_regression]
    rw [foldl_epochBody_char exp log perms y tx gamma bs w0 m hm]
    rfl
  · simp only [reg_logistic_regression]
    rw [foldl_epochBodyReg_char exp log perms y tx lambda_ gamma bs w0 m hm]
    rfl

/-- Witness for C9 at a concrete instantiation over `ℚ`. -/
theorem C9_zero_iters_no_result_witness :
    (1 ≤ 1) ∧
    (logistic_regression id id (fun _ => []) [(0 : ℚ)] [[(1 : ℚ)]] [(0 : ℚ)]
        0 1 1 = none ∧
      reg_logistic_regression id id (fun _ => []) [(0 : ℚ)] [[(1 : ℚ)]] 1
        [(0 : ℚ)] 0 1 1 = none ∧
      (∃ p, logistic_regression id id (fun _ => []) [(0 : ℚ)] [[(1 : ℚ)]]
        [(0 : ℚ)] 1 1 1 = some p) ∧
      (∃ p, reg_logistic_regression id id (fun _ => []) [(0 : ℚ)] [[(1 : ℚ)]] 1
        [(0 : ℚ)] 1 1 1 = some p)) :=
  ⟨le_refl 1,
   C9_zero_iters_no_result id id (fun _ => []) [(0 : ℚ)] [[(1 : ℚ)]] [(0 : ℚ)]
     1 1 1 1 (le_refl 1)⟩

lemma preserves_refl (σ : Store α) : Preserves σ σ :=
  ⟨le_refl _, fun _ _ => rfl⟩

lemma preserves_trans {σ1 σ2 σ3 : Store α} (h12 : Preserves σ1 σ2)
    (h23 : Preserves σ2 σ3) : Preserves σ1 σ3 :=
  ⟨le_trans h12.1 h23.1,
   fun r hr => (h23.2 r (lt_of_lt_of_le hr h12.1)).trans (h12.2 r hr)⟩

lemma preserves_loss_st (exp log : α → α) (σ : Store α) (ry rtx : ℕ)
    (w : List α) : Preserves σ (cross_entropy_loss_st exp log σ ry rtx w).1 := by
  simp only [cross_entropy_loss_st, clippingSt, allocV, writeV]
  constructor
  · simp
  · intro r hr
    rw [List.getElem?_set_ne (by omega)]
    exact List.getElem?_append_left hr

lemma preserves_reg_loss_st (exp log : α → α) (σ : Store α) (ry rtx : ℕ)
    (w : List α) (lambda_ : α) :
    Preserves σ (regularized_cross_entropy_loss_st exp log σ ry rtx w lambda_).1 :=
  preserves_loss_st exp log σ ry rtx w

lemma preserves_foldl {S : Type} (proj : S → Store α) (step : S → ℕ → S)
    (hstep : ∀ st n, Preserves (proj st) (proj (step st n))) :
    ∀ (l : List ℕ) (init : S),
      Preserves (proj init) (proj (l.foldl step init)) := by
  intro l
  induction l with
  | nil => exact fun init => preserves_refl _
  | cons a as ih =>
    exact fun init => preserves_trans (hstep init a) (ih (step init a))

/-- **C3 counterexample.** On the heap model, `clipping` applied to the
array behind reference `0` of a one-array store holding `[20]` returns
the very same reference and leaves the argument changed — refuting the
claim that the call leaves its argument unchanged and returns a
distinct array. -/
theorem C3_clipping_copy_counterexample :
    ¬ (readV (clippingSt (⟨[Obj.vec [(20 : ℚ)]]⟩ : Store ℚ) 0).1 0 =
         readV (⟨[Obj.vec [(20 : ℚ)]]⟩ : Store ℚ) 0 ∧
       (clippingSt (⟨[Obj.vec [(20 : ℚ)]]⟩ : Store ℚ) 0).2 ≠ 0) := by
  decide

/-- **C3 (amended).** `clipping` mutates its argument in place and
returns the argument itself: the returned reference is the argument's
reference, after the call the argument's buffer holds the clipped
values, and every other array in the heap is untouched. -/
theorem C3_clipping_in_place (σ : Store α) (r : ℕ)
    (h : r < σ.data.length) :
    (clippingSt σ r).2 = r ∧
    readV (clippingSt σ r).1 r = clipping (readV σ r) ∧
    ∀ r', r' ≠ r → (clippingSt σ r).1.data[r']? = σ.data[r']? := by
  refine ⟨rfl, ?_, ?_⟩
  · simp only [clippingSt, writeV, readV]
    rw [List.getElem?_set_self h]
  · intro r' hne
    simp only [clippingSt, writeV]
    exact List.getElem?_set_ne (Ne.symm hne)

/-- Witness for the amended C3 on a concrete two-array store. -/
theorem C3_clipping_in_place_witness :
    (0 < (⟨[Obj.vec [(20 : ℚ)], Obj.vec [(1 : ℚ)]]⟩ : Store ℚ).data.length) ∧
    (clippingSt (⟨[Obj.vec [(20 : ℚ)], Obj.vec [(1 : ℚ)]]⟩ : Store ℚ) 0).2 = 0 ∧
    readV (clippingSt (⟨[Obj.vec [(20 : ℚ)], Obj.vec [(1 : ℚ)]]⟩ : Store ℚ) 0).1 0 =
      clipping (readV (⟨[Obj.vec [(20 : ℚ)], Obj.vec [(1 : ℚ)]]⟩ : Store ℚ) 0) ∧
    (clippingSt (⟨[Obj.vec [(20 : ℚ)], Obj.vec [(1 : ℚ)]]⟩ : Store ℚ) 0).1.data[1]? =
      (⟨[Obj.vec [(20 : ℚ)], Obj.vec [(1 : ℚ)]]⟩ : Store ℚ).data[1]? :=
  ⟨by decide,
   (C3_clipping_in_place (⟨[Obj.vec [(20 : ℚ)], Obj.vec [(1 : ℚ)]]⟩ : Store ℚ) 0
     (by decide)).1,
   (C3_clipping_in_place (⟨[Obj.vec [(20 : ℚ)], Obj.vec [(1 : ℚ)]]⟩ : Store ℚ) 0
     (by decide)).2.1,
   (C3_clipping_in_place (⟨[Obj.vec [(20 : ℚ)], Obj.vec [(1 : ℚ)]]⟩ : Store ℚ) 0
     (by decide)).2.2 1 (by decide)⟩

/-- **C10.** Both training loops leave every array object the caller
already held untouched: every pre-existing heap entry — in particular
the ones behind `ry`, `rtx` and `rw0` — is unchanged when the call
returns; the in-place clipping only ever hits the freshly allocated
`tx @ w` buffers and each weight update rebinds `w` to a fresh value. -/
theorem C10_training_preserves_inputs (exp log : α → α)
    (perms : ℕ → List ℕ) (σ : Store α) (ry rtx rw0 : ℕ) (m : ℕ)
    (gamma lambda_ : α) (bs : ℕ) :
    (∀ r, r < σ.data.length →
      ((logistic_regression_st exp log perms σ ry rtx rw0 m gamma bs).1).data[r]? =
        σ.data[r]?) ∧
    (∀ r, r < σ.data.length →
      ((reg_logistic_regression_st exp log perms σ ry rtx lambda_ rw0 m gamma bs).1).data[r]? =
        σ.data[r]?) := by
  constructor
  · intro r hr
    simp only [logistic_regression_st]
    refine (preserves_foldl (fun (st : Store α × List α × Option α) => st.1)
      (epochBodySt exp log perms ry rtx gamma bs) ?_ (List.range m)
      (σ, readV σ rw0, none)).2 r hr
    intro st n
    simp only [epochBodySt]
    exact preserves_loss_st exp log st.1 ry rtx _
  · intro r hr
    simp only [reg_logistic_regression_st]
    refine (preserves_foldl (fun (st : Store α × List α × Option α) => st.1)
      (epochBodyRegSt exp log perms ry rtx lambda_ gamma bs) ?_ (List.range m)
      (σ, readV σ rw0, none)).2 r hr
    intro st n
    simp only [epochBodyRegSt]
    exact preserves_reg_loss_st exp log st.1 ry rtx _ lambda_

/-- Witness for C10 on a concrete three-object store over `ℚ`. -/
theorem C10_training_preserves_inputs_witness :
    (0 < (⟨[Obj.vec [(1 : ℚ)], Obj.mat [[(2 : ℚ)]], Obj.vec [(3 : ℚ)]]⟩ :
      Store ℚ).data.length) ∧
    ((logistic_regression_st id id (fun _ => [0])
        (⟨[Obj.vec [(1 : ℚ)], Obj.mat [[(2 : ℚ)]], Obj.vec [(3 : ℚ)]]⟩ : Store ℚ)
        0 1 2 1 1 1).1).data[0]? =
      (⟨[Obj.vec [(1 : ℚ)], Obj.mat [[(2 : ℚ)]], Obj.vec [(3 : ℚ)]]⟩ :
        Store ℚ).data[0]? ∧
    ((reg_logistic_regression_st id id (fun _ => [0])
        (⟨[Obj.vec [(1 : ℚ)], Obj.mat [[(2 : ℚ)]], Obj.vec [(3 : ℚ)]]⟩ : Store ℚ)
        0 1 1 2 1 1 1).1).data[0]? =
      (⟨[Obj.vec [(1 : ℚ)], Obj.mat [[(2 : ℚ)]], Obj.vec [(3 : ℚ)]]⟩ :
        Store ℚ).data[0]? :=
  ⟨by decide,
   (C10_training_preserves_inputs id id (fun _ => [0])
     (⟨[Obj.vec [(1 : ℚ)], Obj.mat [[(2 : ℚ)]], Obj.vec [(3 : ℚ)]]⟩ : Store ℚ)
     0 1 2 1 1 1 1).1 0 (by decide),
   (C10_training_preserves_inputs id id (fun _ => [0])
     (⟨[Obj.vec [(1 : ℚ)], Obj.mat [[(2 : ℚ)]], Obj.vec [(3 : ℚ)]]⟩ : Store ℚ)
     0 1 2 1 1 1 1).2 0 (by decide)⟩

/-- **C8.** The gradient is `txᵗ · (sigmoid(tx @ w) − y)` and, for
compatible shapes (`tx` has `len y` rows, `len y > 0`, and every row of
`tx` has `len w` entries), the returned vector has the same length as
`w`. -/
theorem C8_gradient_shape (exp : α → α) (y : List α) (tx : List (List α))
    (w : List α) (hrows : tx.length = y.length) (hy : 0 < y.length)
    (hcols : ∀ r ∈ tx, r.length = w.length) :
    cross_entropy_gradient exp y tx w =
      matVec (npT tx) (vecSub (sigmoid exp (matVec tx w)) y) ∧
    (cross_entropy_gradient exp y tx w).length = w.length := by
  refine ⟨rfl, ?_⟩
  cases tx with
  | nil =>
    rw [← hrows] at hy
    simp at hy
  | cons r rs =>
    have hlen : (cross_entropy_gradient exp y (r :: rs) w).length =
        (npT (r :: rs)).length := by
      simp [cross_entropy_gradient, length_matVec]
    rw [hlen]
    simp only [npT, List.length_map, List.length_range]
    exact hcols r (List.mem_cons_self r rs)

/-- Witness for C8 at `y = [0]`, `tx = [[1]]`, `w = [2]` over `ℚ`. -/
theorem C8_gradient_shape_witness :
    (([[(1 : ℚ)]] : List (List ℚ)).length = [(0 : ℚ)].length ∧
      0 < [(0 : ℚ)].length ∧ ∀ r ∈ [[(1 : ℚ)]], r.length = [(2 : ℚ)].length) ∧
    (cross_entropy_gradient id [(0 : ℚ)] [[(1 : ℚ)]] [(2 : ℚ)] =
        matVec (npT [[(1 : ℚ)]])
          (vecSub (sigmoid id (matVec [[(1 : ℚ)]] [(2 : ℚ)])) [(0 : ℚ)]) ∧
      (cross_entropy_gradient id [(0 : ℚ)] [[(1 : ℚ)]] [(2 : ℚ)]).length =
        [(2 : ℚ)].length) :=
  ⟨⟨by decide, by decide, by decide⟩,
   C8_gradient_shape id [(0 : ℚ)] [[(1 : ℚ)]] [(2 : ℚ)] (by decide) (by decide)
     (by decide)⟩

lemma exp_fifteen_lt : Real.exp 15 < 9999999 := by
  have h1 : Real.exp 15 = Real.exp 1 ^ (15 : ℕ) := by
    rw [← Real.exp_nat_mul]
    norm_num
  have h2 : Real.exp 1 ^ (15 : ℕ) < (2.7182818286 : ℝ) ^ (15 : ℕ) :=
    pow_lt_pow_left₀ Real.exp_one_lt_d9 (le_of_lt (Real.exp_pos 1))
      (by norm_num)
  have h3 : (2.7182818286 : ℝ) ^ (15 : ℕ) < 9999999 := by norm_num
  rw [h1]
  linarith

lemma sigmoidFn_bounds (t : ℝ) (h1 : -15 ≤ t) (h2 : t ≤ 15) :
    1 / 10 ^ 7 < sigmoidFn Real.exp t ∧
      sigmoidFn Real.exp t < 1 - 1 / 10 ^ 7 := by
  have hE := exp_fifteen_lt
  have hEpos := Real.exp_pos 15
  have ht1 : Real.exp (-t) ≤ Real.exp 15 := Real.exp_le_exp.2 (by linarith)
  have ht2 : Real.exp (-15) ≤ Real.exp (-t) := Real.exp_le_exp.2 (by linarith)
  have hlow : (9999999 : ℝ)⁻¹ < Real.exp (-t) := by
    rw [Real.exp_neg 15] at ht2
    have hinv : (9999999 : ℝ)⁻¹ < (Real.exp 15)⁻¹ := inv_strictAnti₀ hEpos hE
    linarith
  have hd : (0 : ℝ) < 1 + Real.exp (-t) := by positivity
  unfold sigmoidFn
  constructor
  · rw [div_lt_div_iff₀ (by norm_num) hd]
    nlinarith
  · rw [div_lt_iff₀ hd]
    have hmul : (9999999 : ℝ)⁻¹ * (1 - 1 / 10 ^ 7) <
        Real.exp (-t) * (1 - 1 / 10 ^ 7) :=
      mul_lt_mul_of_pos_right hlow (by norm_num)
    nlinarith

lemma mem_clipping_bounds (z : List α) (x : α) (hx : x ∈ clipping z) :
    -15 ≤ x ∧ x ≤ 15 := by
  simp only [clipping, List.mem_map] at hx
  obtain ⟨a, ⟨b, _, rfl⟩, rfl⟩ := hx
  have h15 : (-15 : α) ≤ 15 := by norm_num
  constructor <;> split_ifs <;> linarith

/-- **C6.** Every element of `sigmoid(clipping(z))` (with the real
exponential) lies strictly inside the open interval
`(1e-7, 1 - 1e-7)`; in particular it is never exactly `0` or `1`. -/
theorem C6_sigmoid_clipped_bounded (z : List ℝ) :
    ∀ x ∈ sigmoid Real.exp (clipping z),
      1 / 10 ^ 7 < x ∧ x < 1 - 1 / 10 ^ 7 := by
  intro x hx
  simp only [sigmoid, List.mem_map] at hx
  obtain ⟨t, ht, rfl⟩ := hx
  have hb := mem_clipping_bounds z t ht
  exact sigmoidFn_bounds t hb.1 hb.2

/-- Witness for C6 at the concrete array `[0]`. -/
theorem C6_sigmoid_clipped_bounded_witness :
    (sigmoidFn Real.exp 0 ∈ sigmoid Real.exp (clipping [(0 : ℝ)])) ∧
    (1 / 10 ^ 7 < sigmoidFn Real.exp 0 ∧
      sigmoidFn Real.exp 0 < 1 - 1 / 10 ^ 7) := by
  have hmem : sigmoidFn Real.exp 0 ∈ sigmoid Real.exp (clipping [(0 : ℝ)]) := by
    norm_num [sigmoid, clipping]
  exact ⟨hmem, C6_sigmoid_clipped_bounded [(0 : ℝ)] _ hmem⟩

lemma list_range_one : List.range 1 = [0] := by decide

/-- **C2.** The loss path applies `clipping` to the linear scores
`tx @ w` before `sigmoid` — the loss depends on the scores only through
their clipped values — whereas the gradient path applies `sigmoid` to
the unclipped scores: two weight vectors with equal clipped scores can
give equal losses yet different gradients. -/
theorem C2_loss_clips_gradient_does_not (y : List ℝ) (tx : List (List ℝ))
    (w w' : List ℝ)
    (h : clipping (matVec tx w) = clipping (matVec tx w')) :
    cross_entropy_loss Real.exp Real.log y tx w =
      cross_entropy_loss Real.exp Real.log y tx w' ∧
    (clipping (matVec [[(1 : ℝ)]] [16]) = clipping (matVec [[(1 : ℝ)]] [17]) ∧
      cross_entropy_gradient Real.exp [(0 : ℝ)] [[(1 : ℝ)]] [16] ≠
        cross_entropy_gradient Real.exp [(0 : ℝ)] [[(1 : ℝ)]] [17]) := by
  refine ⟨?_, ?_, ?_⟩
  · simp only [cross_entropy_loss]
    rw [h]
  · norm_num [clipping, matVec, dot]
  · have hlt : Real.exp (-17) < Real.exp (-16) := Real.exp_lt_exp.2 (by norm_num)
    have h17 : (0 : ℝ) < 1 + Real.exp (-17) := by positivity
    have hne : (1 : ℝ) / (1 + Real.exp (-16)) ≠ 1 / (1 + Real.exp (-17)) :=
      ne_of_lt (one_div_lt_one_div_of_lt h17 (by linarith))
    have e16 : cross_entropy_gradient Real.exp [(0 : ℝ)] [[(1 : ℝ)]] [16] =
        [1 / (1 + Real.exp (-16))] := by
      norm_num [cross_entropy_gradient, matVec, dot, npT, vecSub, sigmoid,
        sigmoidFn, list_range_one, Function.comp]
    have e17 : cross_entropy_gradient Real.exp [(0 : ℝ)] [[(1 : ℝ)]] [17] =
        [1 / (1 + Real.exp (-17))] := by
      norm_num [cross_entropy_gradient, matVec, dot, npT, vecSub, sigmoid,
        sigmoidFn, list_range_one, Function.comp]
    rw [e16, e17]
    intro hc
    exact hne (List.cons.inj hc).1

/-- Witness for C2 at `y = [0]`, `tx = [[1]]`, `w = [16]`, `w' = [17]`. -/
theorem C2_loss_clips_gradient_does_not_witness :
    (clipping (matVec [[(1 : ℝ)]] [16]) = clipping (matVec [[(1 : ℝ)]] [17])) ∧
    (cross_entropy_loss Real.exp Real.log [(0 : ℝ)] [[(1 : ℝ)]] [16] =
        cross_entropy_loss Real.exp Real.log [(0 : ℝ)] [[(1 : ℝ)]] [17] ∧
      (clipping (matVec [[(1 : ℝ)]] [16]) = clipping (matVec [[(1 : ℝ)]] [17]) ∧
        cross_entropy_gradient Real.exp [(0 : ℝ)] [[(1 : ℝ)]] [16] ≠
          cross_entropy_gradient Real.exp [(0 : ℝ)] [[(1 : ℝ)]] [17])) := by
  have hc : clipping (matVec [[(1 : ℝ)]] [16]) =
      clipping (matVec [[(1 : ℝ)]] [17]) := by
    norm_num [clipping, matVec, dot]
  exact ⟨hc, C2_loss_clips_gradient_does_not [(0 : ℝ)] [[(1 : ℝ)]] [16] [17] hc⟩

end Impl
